import Mathlib

/-!
Shallow embedding of the `usi_i2c_slave` I2C slave protocol engine
(`i2c_machine.c`, with its headers `i2c_machine.h` / `i2c_slave_defs.h`).

The engine's persistent state consists of the three `volatile uint8_t`
globals `i2c_state`, `i2c_offset`, `i2c_update`, the application-owned
register file `i2c_reg[I2C_N_REG]`, the ISR-static `post_ack` flag, the
USI data (shift) register `USIDR`, and the SDA direction bit of the DDR.
Hardware configuration registers written by `i2c_init` (USICR, port and
pull-up setup) and the USI status register USISR are hardware-side; the
one USISR bit the protocol logic reads, the stop flag `USIPF` (bit 5),
is passed to `i2c_check_stop` as a snapshot argument.

Compile-time configuration (`I2C_SLAVE_ADDR`, `I2C_N_REG`, and either
`i2c_w_mask[]` or `I2C_GLOBAL_WRITE_MASK`) is a `Cfg` record; a global
write mask is the constant list.  All machine bytes are `Nat` with
explicit `% 256` where the C `uint8_t` arithmetic can overflow.
-/

namespace I2CSlave

/-- `#define I2C_STATE_ADDR_MATCH 0` -/
def I2C_STATE_ADDR_MATCH : Nat := 0
/-- `#define I2C_STATE_REG_ADDR 1` -/
def I2C_STATE_REG_ADDR : Nat := 1
/-- `#define I2C_STATE_MASTER_READ 2` -/
def I2C_STATE_MASTER_READ : Nat := 2
/-- `#define I2C_STATE_MASTER_WRITE 3` -/
def I2C_STATE_MASTER_WRITE : Nat := 3
/-- `#define I2C_STATE_IDLE 4` -/
def I2C_STATE_IDLE : Nat := 4

/-- `#define NAK() USIDR = 0x80` : value the shift register holds to drive NAK. -/
def nakVal : Nat := 0x80
/-- `#define ACK() USIDR = 0x00` : value the shift register holds to drive ACK. -/
def ackVal : Nat := 0x00

/-- Bit index of the USI stop-condition flag in USISR (`USIPF`, avr io headers). -/
def USIPF : Nat := 5

/-- Compile-time configuration from `i2c_slave_defs.h`:
slave address, register count, and the per-register write mask
(`i2c_w_mask`; a global `I2C_GLOBAL_WRITE_MASK` is the constant list). -/
structure Cfg where
  slaveAddr : Nat
  nReg : Nat
  wmask : List Nat
deriving DecidableEq, Repr

/-- The engine's mutable state: the globals `i2c_state`, `i2c_offset`,
`i2c_update`, the register file `i2c_reg`, the ISR-static `post_ack`,
the USI shift register `USIDR`, and the SDA direction
(`true` = output, `I2C_SDA_DIR_OUT`). -/
structure Engine where
  i2c_state : Nat
  i2c_offset : Nat
  i2c_update : Nat
  i2c_reg : List Nat
  post_ack : Bool
  usidr : Nat
  sda_out : Bool
deriving DecidableEq, Repr

/-- The offset clamp at the end of `ISR(USI_OVERFLOW_vect)`:
`if (i2c_offset > (I2C_N_REG - 1)) i2c_offset = 0;`. -/
def clampOffset (cfg : Cfg) (e : Engine) : Engine :=
  if e.i2c_offset > cfg.nReg - 1 then { e with i2c_offset := 0 } else e

/-- Pre-ACK phase of `ISR(USI_OVERFLOW_vect)` (the `!post_ack` branch):
dispatch on `i2c_state`, drive ACK/NAK, commit master writes.
`e.usidr` holds the byte just shifted in.  The C masked write
`reg &= ~mask; reg |= USIDR & mask` on `uint8_t` is
`(reg &&& (255 ^^^ mask)) ||| (usidr &&& mask)`. -/
def isrOverflowPre (cfg : Cfg) (e : Engine) : Engine :=
  if e.i2c_state = I2C_STATE_ADDR_MATCH then
    let tmp := e.usidr / 2
    if tmp ≠ 0 ∧ tmp ≠ cfg.slaveAddr then
      { e with i2c_state := I2C_STATE_IDLE, usidr := nakVal, sda_out := true }
    else if e.usidr % 2 = 1 then
      { e with i2c_state := I2C_STATE_MASTER_READ, usidr := ackVal, sda_out := true }
    else
      { e with i2c_offset := 0, i2c_state := I2C_STATE_REG_ADDR,
               i2c_update := 1, usidr := ackVal, sda_out := true }
  else if e.i2c_state = I2C_STATE_REG_ADDR then
    if e.usidr > cfg.nReg - 1 then
      { e with i2c_state := I2C_STATE_IDLE, usidr := nakVal, sda_out := true }
    else
      { e with i2c_offset := e.usidr, i2c_state := I2C_STATE_MASTER_WRITE,
               usidr := ackVal, sda_out := true }
  else if e.i2c_state = I2C_STATE_MASTER_READ then
    { e with usidr := 0, sda_out := false }
  else if e.i2c_state = I2C_STATE_MASTER_WRITE then
    let mask := cfg.wmask.getD e.i2c_offset 0
    let regs :=
      if mask ≠ 0 then
        e.i2c_reg.set e.i2c_offset
          ((e.i2c_reg.getD e.i2c_offset 0 &&& (255 ^^^ mask)) ||| (e.usidr &&& mask))
      else e.i2c_reg
    { e with i2c_reg := regs, i2c_update := (e.i2c_update + 1) % 256,
             i2c_offset := (e.i2c_offset + 1) % 256, usidr := ackVal, sda_out := true }
  else
    { e with usidr := nakVal, sda_out := true }

/-- Post-ACK phase of `ISR(USI_OVERFLOW_vect)` (the `post_ack` branch):
only `I2C_STATE_MASTER_READ` does work; `e.usidr` holds the sampled
master ACK bit (non-zero means the master NAKed). -/
def isrOverflowPost (e : Engine) : Engine :=
  if e.i2c_state = I2C_STATE_MASTER_READ then
    if e.usidr ≠ 0 then
      { e with i2c_offset := 0, i2c_state := I2C_STATE_IDLE, sda_out := false }
    else
      { e with sda_out := true, usidr := e.i2c_reg.getD e.i2c_offset 0,
               i2c_offset := (e.i2c_offset + 1) % 256 }
  else
    { e with sda_out := false }

/-- `ISR(USI_OVERFLOW_vect)`: two-phase handler toggling `post_ack`,
followed by the offset clamp. -/
def isrOverflow (cfg : Cfg) (e : Engine) : Engine :=
  if e.post_ack = false then
    clampOffset cfg { isrOverflowPre cfg e with post_ack := true }
  else
    clampOffset cfg { isrOverflowPost e with post_ack := false }

/-- `ISR(USI_START_vect)`: `i2c_state = 0;` (the SCL wait and the USISR
write are hardware-side). -/
def isrStart (e : Engine) : Engine :=
  { e with i2c_state := 0 }

/-- `i2c_init()`: `i2c_state = 0;` (the USICR/DDR/PORT/USISR writes are
hardware configuration outside the engine state). -/
def i2c_init (e : Engine) : Engine :=
  { e with i2c_state := 0 }

/-- `i2c_transaction_ongoing()`. -/
def i2c_transaction_ongoing (e : Engine) : Nat :=
  if e.i2c_state ≠ I2C_STATE_IDLE ∧ e.i2c_state ≠ I2C_STATE_ADDR_MATCH
  then 1 else 0

/-- `i2c_check_stop()`: `usisr` is the USISR snapshot read inside the
critical section.  Returns the updated engine and the `uint8_t` result. -/
def i2c_check_stop (e : Engine) (usisr : Nat) : Engine × Nat :=
  if e.i2c_state = I2C_STATE_MASTER_WRITE ∧ e.i2c_update ≠ 0 then
    if usisr.testBit USIPF then
      ({ e with i2c_state := I2C_STATE_IDLE, i2c_update := 0 }, e.i2c_update)
    else (e, 0)
  else (e, 0)

/-- One master-to-slave byte on the wire: the byte lands in the shift
register, then the overflow ISR runs its pre-ACK and post-ACK phases. -/
def recvByte (cfg : Cfg) (e : Engine) (b : Nat) : Engine :=
  isrOverflow cfg (isrOverflow cfg { e with usidr := b })

/-- A START condition followed by a list of master-to-slave bytes. -/
def runWrite (cfg : Cfg) (e : Engine) (bytes : List Nat) : Engine :=
  bytes.foldl (recvByte cfg) (isrStart e)

/-- The end-to-end scenario configuration of the spec:
`SLAVE_ADDR = 0x40`, `N_REG = 2`, `write_mask = [0xFF, 0x0F]`. -/
def cfg2 : Cfg := ⟨0x40, 2, [0xFF, 0x0F]⟩

/-- Power-on engine state: the C initializers
`i2c_update = 0; i2c_state = 0; i2c_offset = 0;`, registers cleared. -/
def engine0 : Engine :=
  ⟨0, 0, 0, [0x00, 0x00], false, 0, false⟩

/-! ### Helper lemmas about the embedded operations -/

@[simp]
lemma clampOffset_i2c_state (cfg : Cfg) (e : Engine) :
    (clampOffset cfg e).i2c_state = e.i2c_state := by
  unfold clampOffset; split <;> rfl

@[simp]
lemma clampOffset_i2c_update (cfg : Cfg) (e : Engine) :
    (clampOffset cfg e).i2c_update = e.i2c_update := by
  unfold clampOffset; split <;> rfl

@[simp]
lemma clampOffset_i2c_reg (cfg : Cfg) (e : Engine) :
    (clampOffset cfg e).i2c_reg = e.i2c_reg := by
  unfold clampOffset; split <;> rfl

@[simp]
lemma clampOffset_post_ack (cfg : Cfg) (e : Engine) :
    (clampOffset cfg e).post_ack = e.post_ack := by
  unfold clampOffset; split <;> rfl

@[simp]
lemma clampOffset_usidr (cfg : Cfg) (e : Engine) :
    (clampOffset cfg e).usidr = e.usidr := by
  unfold clampOffset; split <;> rfl

@[simp]
lemma clampOffset_sda_out (cfg : Cfg) (e : Engine) :
    (clampOffset cfg e).sda_out = e.sda_out := by
  unfold clampOffset; split <;> rfl

lemma clampOffset_i2c_offset (cfg : Cfg) (e : Engine) :
    (clampOffset cfg e).i2c_offset =
      if e.i2c_offset > cfg.nReg - 1 then 0 else e.i2c_offset := by
  unfold clampOffset; split <;> simp_all

lemma clampOffset_i2c_offset_lt (cfg : Cfg) (e : Engine) (h : 0 < cfg.nReg) :
    (clampOffset cfg e).i2c_offset < cfg.nReg := by
  rw [clampOffset_i2c_offset]
  split <;> omega

lemma isrOverflow_of_not_post_ack (cfg : Cfg) (e : Engine) (h : e.post_ack = false) :
    isrOverflow cfg e = clampOffset cfg { isrOverflowPre cfg e with post_ack := true } := by
  unfold isrOverflow; rw [h]; rfl

lemma isrOverflow_of_post_ack (cfg : Cfg) (e : Engine) (h : e.post_ack = true) :
    isrOverflow cfg e = clampOffset cfg { isrOverflowPost e with post_ack := false } := by
  unfold isrOverflow; rw [h]; rfl

lemma isrOverflowPost_i2c_reg (e : Engine) :
    (isrOverflowPost e).i2c_reg = e.i2c_reg := by
  unfold isrOverflowPost
  split
  · split <;> rfl
  · rfl

lemma isrOverflowPre_addr_match (cfg : Cfg) (e : Engine)
    (hst : e.i2c_state = I2C_STATE_ADDR_MATCH) :
    isrOverflowPre cfg e =
      if e.usidr / 2 ≠ 0 ∧ e.usidr / 2 ≠ cfg.slaveAddr then
        { e with i2c_state := I2C_STATE_IDLE, usidr := nakVal, sda_out := true }
      else if e.usidr % 2 = 1 then
        { e with i2c_state := I2C_STATE_MASTER_READ, usidr := ackVal, sda_out := true }
      else
        { e with i2c_offset := 0, i2c_state := I2C_STATE_REG_ADDR,
                 i2c_update := 1, usidr := ackVal, sda_out := true } := by
  unfold isrOverflowPre
  rw [hst]
  simp [I2C_STATE_ADDR_MATCH, I2C_STATE_REG_ADDR, I2C_STATE_MASTER_READ,
    I2C_STATE_MASTER_WRITE]

lemma isrOverflowPre_reg_addr (cfg : Cfg) (e : Engine)
    (hst : e.i2c_state = I2C_STATE_REG_ADDR) :
    isrOverflowPre cfg e =
      if e.usidr > cfg.nReg - 1 then
        { e with i2c_state := I2C_STATE_IDLE, usidr := nakVal, sda_out := true }
      else
        { e with i2c_offset := e.usidr, i2c_state := I2C_STATE_MASTER_WRITE,
                 usidr := ackVal, sda_out := true } := by
  unfold isrOverflowPre
  rw [hst]
  simp [I2C_STATE_ADDR_MATCH, I2C_STATE_REG_ADDR, I2C_STATE_MASTER_READ,
    I2C_STATE_MASTER_WRITE]

lemma isrOverflowPre_mwrite (cfg : Cfg) (e : Engine)
    (hst : e.i2c_state = I2C_STATE_MASTER_WRITE) :
    isrOverflowPre cfg e =
      { e with
        i2c_reg :=
          if cfg.wmask.getD e.i2c_offset 0 ≠ 0 then
            e.i2c_reg.set e.i2c_offset
              ((e.i2c_reg.getD e.i2c_offset 0 &&& (255 ^^^ cfg.wmask.getD e.i2c_offset 0)) |||
                (e.usidr &&& cfg.wmask.getD e.i2c_offset 0))
          else e.i2c_reg,
        i2c_update := (e.i2c_update + 1) % 256,
        i2c_offset := (e.i2c_offset + 1) % 256,
        usidr := ackVal, sda_out := true } := by
  unfold isrOverflowPre
  rw [hst]
  simp [I2C_STATE_ADDR_MATCH, I2C_STATE_REG_ADDR, I2C_STATE_MASTER_READ,
    I2C_STATE_MASTER_WRITE]

lemma isrOverflowPre_mread (cfg : Cfg) (e : Engine)
    (hst : e.i2c_state = I2C_STATE_MASTER_READ) :
    isrOverflowPre cfg e = { e with usidr := 0, sda_out := false } := by
  unfold isrOverflowPre
  rw [hst]
  simp [I2C_STATE_ADDR_MATCH, I2C_STATE_REG_ADDR, I2C_STATE_MASTER_READ,
    I2C_STATE_MASTER_WRITE]

lemma isrOverflowPre_default (cfg : Cfg) (e : Engine)
    (h0 : ¬ e.i2c_state = I2C_STATE_ADDR_MATCH)
    (h1 : ¬ e.i2c_state = I2C_STATE_REG_ADDR)
    (h2 : ¬ e.i2c_state = I2C_STATE_MASTER_READ)
    (h3 : ¬ e.i2c_state = I2C_STATE_MASTER_WRITE) :
    isrOverflowPre cfg e = { e with usidr := nakVal, sda_out := true } := by
  unfold isrOverflowPre
  rw [if_neg h0, if_neg h1, if_neg h2, if_neg h3]

/-- The bit-level effect of the C masked write
`reg &= ~mask; reg |= v & mask` (on `uint8_t`): a bit outside the mask
keeps its old value, as long as the old value is a byte. -/
lemma masked_write_testBit (old v mask p : Nat) (hm : mask.testBit p = false)
    (hold : old < 256) :
    ((old &&& (255 ^^^ mask)) ||| (v &&& mask)).testBit p = old.testBit p := by
  rw [Nat.testBit_or, Nat.testBit_and, Nat.testBit_and, Nat.testBit_xor, hm]
  by_cases hp : p < 8
  · have h255 : (255 : Nat).testBit p = true := by
      have h : (255 : Nat) = 2 ^ 8 - 1 := by norm_num
      rw [h, Nat.testBit_two_pow_sub_one]
      simp [hp]
    simp [h255]
  · have h255 : (255 : Nat).testBit p = false := by
      have h : (255 : Nat) = 2 ^ 8 - 1 := by norm_num
      rw [h, Nat.testBit_two_pow_sub_one]
      simp [hp]
    have hob : old.testBit p = false := by
      apply Nat.testBit_lt_two_pow
      calc old < 256 := hold
        _ = 2 ^ 8 := by norm_num
        _ ≤ 2 ^ p := Nat.pow_le_pow_right (by norm_num) (by omega)
    simp [h255, hob]

lemma clampOffset_of_offset_zero (cfg : Cfg) (e : Engine) (h : e.i2c_offset = 0) :
    clampOffset cfg e = e := by
  unfold clampOffset
  rw [h]
  simp

lemma clampOffset_of_not_gt (cfg : Cfg) (e : Engine) (h : ¬ e.i2c_offset > cfg.nReg - 1) :
    clampOffset cfg e = e := by
  unfold clampOffset
  rw [if_neg h]

lemma isrOverflowPost_not_mread (e : Engine) (h : ¬ e.i2c_state = I2C_STATE_MASTER_READ) :
    isrOverflowPost e = { e with sda_out := false } := by
  unfold isrOverflowPost
  rw [if_neg h]

lemma getD_set_lt (l : List Nat) (i r v : Nat) (hr : r < l.length) :
    (l.set i v).getD r 0 = if r = i then v else l.getD r 0 := by
  by_cases h : r = i
  · subst h
    simp [List.getD_eq_getElem?_getD, List.getElem?_set_eq_of_lt _ hr]
  · simp [h, List.getD_eq_getElem?_getD, List.getElem?_set_ne fun hh => h hh.symm]

/-- A matching address byte `a` with R/W = 0 (transition a), followed by
the ACK slot: full effect of one received address byte in write mode. -/
lemma recvByte_addr_write (cfg : Cfg) (e : Engine) (a : Nat)
    (hpa : e.post_ack = false) (hst : e.i2c_state = I2C_STATE_ADDR_MATCH)
    (ha : a / 2 = 0 ∨ a / 2 = cfg.slaveAddr) (hrw : a % 2 = 0) :
    recvByte cfg e a =
      { i2c_state := I2C_STATE_REG_ADDR, i2c_offset := 0, i2c_update := 1,
        i2c_reg := e.i2c_reg, post_ack := false, usidr := ackVal, sda_out := false } := by
  have h1 : isrOverflow cfg { e with usidr := a } =
      { i2c_state := I2C_STATE_REG_ADDR, i2c_offset := 0, i2c_update := 1,
        i2c_reg := e.i2c_reg, post_ack := true, usidr := ackVal, sda_out := true } := by
    rw [isrOverflow_of_not_post_ack cfg { e with usidr := a } hpa,
      isrOverflowPre_addr_match cfg { e with usidr := a } hst,
      if_neg (by rcases ha with h | h <;> simp [h]), if_neg (by simp [hrw])]
    simp [clampOffset]
  have h2 : isrOverflow cfg
      { i2c_state := I2C_STATE_REG_ADDR, i2c_offset := 0, i2c_update := 1,
        i2c_reg := e.i2c_reg, post_ack := true, usidr := ackVal, sda_out := true } =
      { i2c_state := I2C_STATE_REG_ADDR, i2c_offset := 0, i2c_update := 1,
        i2c_reg := e.i2c_reg, post_ack := false, usidr := ackVal, sda_out := false } := by
    rw [isrOverflow_of_post_ack _ _ rfl,
      isrOverflowPost_not_mread _ (by simp [I2C_STATE_REG_ADDR, I2C_STATE_MASTER_READ])]
    simp [clampOffset]
  unfold recvByte
  rw [h1, h2]

/-- A valid register-offset byte `b` (transition d), followed by the ACK
slot: full effect of one received offset byte. -/
lemma recvByte_reg_addr (cfg : Cfg) (e : Engine) (b : Nat)
    (hpa : e.post_ack = false) (hst : e.i2c_state = I2C_STATE_REG_ADDR)
    (hb : ¬ b > cfg.nReg - 1) :
    recvByte cfg e b =
      { i2c_state := I2C_STATE_MASTER_WRITE, i2c_offset := b, i2c_update := e.i2c_update,
        i2c_reg := e.i2c_reg, post_ack := false, usidr := ackVal, sda_out := false } := by
  have h1 : isrOverflow cfg { e with usidr := b } =
      { i2c_state := I2C_STATE_MASTER_WRITE, i2c_offset := b, i2c_update := e.i2c_update,
        i2c_reg := e.i2c_reg, post_ack := true, usidr := ackVal, sda_out := true } := by
    rw [isrOverflow_of_not_post_ack cfg { e with usidr := b } hpa,
      isrOverflowPre_reg_addr cfg { e with usidr := b } hst, if_neg hb]
    simp [clampOffset, hb]
  have h2 : isrOverflow cfg
      { i2c_state := I2C_STATE_MASTER_WRITE, i2c_offset := b, i2c_update := e.i2c_update,
        i2c_reg := e.i2c_reg, post_ack := true, usidr := ackVal, sda_out := true } =
      { i2c_state := I2C_STATE_MASTER_WRITE, i2c_offset := b, i2c_update := e.i2c_update,
        i2c_reg := e.i2c_reg, post_ack := false, usidr := ackVal, sda_out := false } := by
    rw [isrOverflow_of_post_ack _ _ rfl,
      isrOverflowPost_not_mread _ (by simp [I2C_STATE_MASTER_WRITE, I2C_STATE_MASTER_READ])]
    simp [clampOffset, hb]
  unfold recvByte
  rw [h1, h2]

/-! ### Claims -/

/-- **C1, counterexample.** The claim "after `i2c_init()` completes, the
engine's `protocol_state` equals IDLE" is false: `i2c_init` executes
`i2c_state = 0`, and state 0 is `I2C_STATE_ADDR_MATCH`, not
`I2C_STATE_IDLE` (which is 4). -/
theorem c1_init_not_idle :
    (i2c_init engine0).i2c_state ≠ I2C_STATE_IDLE := by
  decide

/-- **C1, amended.** `i2c_init()` sets `protocol_state` to `ADDR_MATCH`
(state 0, awaiting an address byte), for every prior engine state; the
declared initial value of `protocol_state` is also `ADDR_MATCH`. -/
theorem c1_init_state :
    (∀ e : Engine, (i2c_init e).i2c_state = I2C_STATE_ADDR_MATCH) ∧
      engine0.i2c_state = I2C_STATE_ADDR_MATCH :=
  ⟨fun _ => rfl, rfl⟩

/-- **C2, counterexample.** The claim that after START, addr+W (0x80),
one register-offset byte (0x00) and STOP, `update_counter` remains 0 and
`i2c_check_stop` returns 0, is false: the write-mode address match
executes `i2c_update = 1`, so the poller sees a non-zero counter and the
stop flag and returns 1. -/
theorem c2_stop_after_offset_counterexample :
    ¬ ((runWrite cfg2 engine0 [0x80, 0x00]).i2c_update = 0 ∧
       (i2c_check_stop (runWrite cfg2 engine0 [0x80, 0x00]) 0x20).2 = 0) := by
  decide

/-- **C2, amended.** If the master issues STOP immediately after the
register-offset byte (START, addr+W, one valid offset byte, zero data
bytes, STOP), then `update_counter` is 1 — raised at the write-mode
address match — and the stop poller returns 1 (non-zero), for every
configuration, prior engine state outside an ISR phase, valid offset
byte, and USISR snapshot with the stop flag set. -/
theorem c2_stop_after_offset (cfg : Cfg) (e : Engine) (b usisr : Nat)
    (hpa : e.post_ack = false) (hb : ¬ b > cfg.nReg - 1)
    (hstop : usisr.testBit USIPF = true) :
    (runWrite cfg e [2 * cfg.slaveAddr, b]).i2c_update = 1 ∧
    (i2c_check_stop (runWrite cfg e [2 * cfg.slaveAddr, b]) usisr).2 = 1 := by
  have hrun : runWrite cfg e [2 * cfg.slaveAddr, b] =
      { i2c_state := I2C_STATE_MASTER_WRITE, i2c_offset := b, i2c_update := 1,
        i2c_reg := e.i2c_reg, post_ack := false, usidr := ackVal, sda_out := false } := by
    unfold runWrite
    simp only [List.foldl]
    rw [recvByte_addr_write cfg (isrStart e) (2 * cfg.slaveAddr) hpa rfl
      (Or.inr (by omega)) (by omega)]
    rw [recvByte_reg_addr cfg _ b rfl rfl hb]
    rfl
  rw [hrun]
  refine ⟨rfl, ?_⟩
  unfold i2c_check_stop
  rw [if_pos ⟨rfl, by simp⟩, if_pos hstop]

/-- **C2, witness.** The amended statement at the concrete scenario of
the spec: `SLAVE_ADDR = 0x40`, offset byte 0x00, stop flag set. -/
theorem c2_stop_after_offset_witness :
    (runWrite cfg2 engine0 [2 * cfg2.slaveAddr, 0]).i2c_update = 1 ∧
    (i2c_check_stop (runWrite cfg2 engine0 [2 * cfg2.slaveAddr, 0]) 0x20).2 = 1 :=
  c2_stop_after_offset cfg2 engine0 0 0x20 rfl (by decide) (by decide)

/-- **C3, counterexample.** The claim that the bus sequence
`START 0x80 0x01 0x11 0x22 0x33 STOP` (with `SLAVE_ADDR = 0x40`,
`N_REG = 2`, `write_mask = [0xFF, 0x0F]`, registers initially zero)
leaves `register_array = [0x22, 0x01]` is false on the code. -/
theorem c3_wrapped_write_not_claimed :
    (runWrite cfg2 engine0 [0x80, 0x01, 0x11, 0x22, 0x33]).i2c_reg ≠ [0x22, 0x01] := by
  decide

/-- **C3, amended.** Processing `START 0x80 0x01 0x11 0x22 0x33 STOP`
leaves `register_array = [0x22, 0x03]`: 0x11 lands at register 1 masked
to 0x01, 0x22 at register 0, and the final 0x33 overwrites register 1's
writable nibble with 0x03. -/
theorem c3_wrapped_write :
    (runWrite cfg2 engine0 [0x80, 0x01, 0x11, 0x22, 0x33]).i2c_reg = [0x22, 0x03] := by
  decide

/-- Steady state of the C9 scenario's write transaction: in
`MASTER_WRITE` with the data bytes already committed, at offset `o` with
update counter `u`. -/
def eSt (o u : Nat) : Engine :=
  { i2c_state := I2C_STATE_MASTER_WRITE, i2c_offset := o, i2c_update := u,
    i2c_reg := [0x5A, 0x0A], post_ack := false, usidr := ackVal, sda_out := false }

lemma recvByte_eSt0 (u : Nat) :
    recvByte cfg2 (eSt 0 u) 0x5A = eSt 1 ((u + 1) % 256) := by
  simp [recvByte, isrOverflow, isrOverflowPre, isrOverflowPost, clampOffset, eSt, cfg2,
    ackVal, I2C_STATE_ADDR_MATCH, I2C_STATE_REG_ADDR, I2C_STATE_MASTER_READ,
    I2C_STATE_MASTER_WRITE]
  decide

lemma recvByte_eSt1 (u : Nat) :
    recvByte cfg2 (eSt 1 u) 0x5A = eSt 0 ((u + 1) % 256) := by
  simp [recvByte, isrOverflow, isrOverflowPre, isrOverflowPost, clampOffset, eSt, cfg2,
    ackVal, I2C_STATE_ADDR_MATCH, I2C_STATE_REG_ADDR, I2C_STATE_MASTER_READ,
    I2C_STATE_MASTER_WRITE]
  decide

lemma run_eSt (n : Nat) : ∀ o u, o < 2 → u < 256 →
    List.foldl (recvByte cfg2) (eSt o u) (List.replicate n 0x5A) =
      eSt ((o + n) % 2) ((u + n) % 256) := by
  induction n with
  | zero =>
    intro o u ho hu
    rw [List.replicate_zero, List.foldl_nil]
    congr 1 <;> omega
  | succ n ih =>
    intro o u ho hu
    rw [List.replicate_succ, List.foldl_cons]
    obtain rfl | rfl : o = 0 ∨ o = 1 := by omega
    · rw [recvByte_eSt0, ih 1 ((u + 1) % 256) (by norm_num) (Nat.mod_lt _ (by norm_num))]
      congr 1 <;> omega
    · rw [recvByte_eSt1, ih 0 ((u + 1) % 256) (by norm_num) (Nat.mod_lt _ (by norm_num))]
      congr 1 <;> omega

/-- **C4.** Pre-ACK dispatch in state `ADDR_MATCH`: if the received byte
right-shifted by 1 is non-zero and differs from the slave address, the
engine NAKs and goes IDLE; if it equals the slave address or is zero
(general call), the engine ACKs and goes to `REG_ADDR` when the R/W bit
is 0 — clearing `register_offset` and raising the update signal — or to
`MASTER_READ` when the R/W bit is 1. -/
theorem c4_addr_match_dispatch (cfg : Cfg) (e : Engine)
    (hpa : e.post_ack = false) (hst : e.i2c_state = I2C_STATE_ADDR_MATCH) :
    (e.usidr / 2 ≠ 0 ∧ e.usidr / 2 ≠ cfg.slaveAddr →
      (isrOverflow cfg e).i2c_state = I2C_STATE_IDLE ∧
      (isrOverflow cfg e).usidr = nakVal ∧
      (isrOverflow cfg e).sda_out = true) ∧
    ((e.usidr / 2 = 0 ∨ e.usidr / 2 = cfg.slaveAddr) → e.usidr % 2 = 0 →
      (isrOverflow cfg e).i2c_state = I2C_STATE_REG_ADDR ∧
      (isrOverflow cfg e).usidr = ackVal ∧
      (isrOverflow cfg e).sda_out = true ∧
      (isrOverflow cfg e).i2c_offset = 0 ∧
      (isrOverflow cfg e).i2c_update = 1) ∧
    ((e.usidr / 2 = 0 ∨ e.usidr / 2 = cfg.slaveAddr) → e.usidr % 2 = 1 →
      (isrOverflow cfg e).i2c_state = I2C_STATE_MASTER_READ ∧
      (isrOverflow cfg e).usidr = ackVal ∧
      (isrOverflow cfg e).sda_out = true) := by
  rw [isrOverflow_of_not_post_ack cfg e hpa, isrOverflowPre_addr_match cfg e hst]
  refine ⟨?_, ?_, ?_⟩
  · intro h
    rw [if_pos h]
    simp
  · intro h hrw
    rw [if_neg (by rcases h with h | h <;> simp [h]), if_neg (by simp [hrw])]
    simp [clampOffset_i2c_offset]
  · intro h hrw
    rw [if_neg (by rcases h with h | h <;> simp [h]), if_pos hrw]
    simp

/-- **C4, witness.** The dispatch at concrete inputs: the matching
address byte 0x80 (0x40, write) and the mismatching byte 0x22. -/
theorem c4_addr_match_witness :
    ((isrOverflow cfg2 { engine0 with usidr := 0x80 }).i2c_state = I2C_STATE_REG_ADDR ∧
      (isrOverflow cfg2 { engine0 with usidr := 0x80 }).usidr = ackVal ∧
      (isrOverflow cfg2 { engine0 with usidr := 0x80 }).sda_out = true ∧
      (isrOverflow cfg2 { engine0 with usidr := 0x80 }).i2c_offset = 0 ∧
      (isrOverflow cfg2 { engine0 with usidr := 0x80 }).i2c_update = 1) ∧
    ((isrOverflow cfg2 { engine0 with usidr := 0x22 }).i2c_state = I2C_STATE_IDLE ∧
      (isrOverflow cfg2 { engine0 with usidr := 0x22 }).usidr = nakVal ∧
      (isrOverflow cfg2 { engine0 with usidr := 0x22 }).sda_out = true) :=
  ⟨(c4_addr_match_dispatch cfg2 { engine0 with usidr := 0x80 } rfl rfl).2.1
      (Or.inr (by decide)) (by decide),
    (c4_addr_match_dispatch cfg2 { engine0 with usidr := 0x22 } rfl rfl).1
      (by decide)⟩

/-- **C5.** `i2c_check_stop` returns the non-zero snapshot of
`update_counter` and sets `protocol_state = IDLE` while clearing
`update_counter` exactly when `protocol_state == MASTER_WRITE`,
`update_counter ≠ 0` and the USISR stop flag is set; in every other case
it returns 0 and leaves the whole engine state — `protocol_state`,
`update_counter` and the register array — unchanged. -/
theorem c5_check_stop_iff (e : Engine) (usisr : Nat) :
    ((e.i2c_state = I2C_STATE_MASTER_WRITE ∧ e.i2c_update ≠ 0 ∧
        usisr.testBit USIPF = true) →
      i2c_check_stop e usisr =
        ({ e with i2c_state := I2C_STATE_IDLE, i2c_update := 0 }, e.i2c_update) ∧
      (i2c_check_stop e usisr).2 ≠ 0) ∧
    (¬ (e.i2c_state = I2C_STATE_MASTER_WRITE ∧ e.i2c_update ≠ 0 ∧
        usisr.testBit USIPF = true) →
      i2c_check_stop e usisr = (e, 0)) := by
  constructor
  · rintro ⟨h1, h2, h3⟩
    unfold i2c_check_stop
    rw [if_pos ⟨h1, h2⟩, if_pos h3]
    exact ⟨rfl, h2⟩
  · intro h
    unfold i2c_check_stop
    by_cases hab : e.i2c_state = I2C_STATE_MASTER_WRITE ∧ e.i2c_update ≠ 0
    · have hc : ¬ usisr.testBit USIPF = true := fun hc => h ⟨hab.1, hab.2, hc⟩
      rw [if_pos hab, if_neg hc]
    · rw [if_neg hab]

/-- A `MASTER_WRITE` engine state with five staged writes, used as a
concrete input below. -/
def engineMW : Engine :=
  { engine0 with i2c_state := I2C_STATE_MASTER_WRITE, i2c_update := 5 }

/-- **C5, witness.** The poller at a concrete `MASTER_WRITE` state with
counter 5 and the stop flag set, and at the same state with a clear
flag. -/
theorem c5_check_stop_witness :
    (i2c_check_stop engineMW 0x20).2 ≠ 0 ∧
    i2c_check_stop engineMW 0x00 = (engineMW, 0) :=
  ⟨((c5_check_stop_iff engineMW 0x20).1 ⟨rfl, by decide, by decide⟩).2,
    (c5_check_stop_iff engineMW 0x00).2 (by decide)⟩

/-- **C6.** `register_offset < N_REG` is preserved by every invocation
of the overflow ISR and of the start ISR, for every protocol state and
every received byte, given that it held on entry. -/
theorem c6_offset_in_range (cfg : Cfg) (e : Engine)
    (h : e.i2c_offset < cfg.nReg) :
    (isrOverflow cfg e).i2c_offset < cfg.nReg ∧
    (isrStart e).i2c_offset < cfg.nReg := by
  have hn : 0 < cfg.nReg := by omega
  refine ⟨?_, h⟩
  unfold isrOverflow
  split
  · exact clampOffset_i2c_offset_lt cfg _ hn
  · exact clampOffset_i2c_offset_lt cfg _ hn

/-- **C6, witness.** The invariant at the concrete power-on state. -/
theorem c6_offset_in_range_witness :
    engine0.i2c_offset < cfg2.nReg ∧
    ((isrOverflow cfg2 engine0).i2c_offset < cfg2.nReg ∧
      (isrStart engine0).i2c_offset < cfg2.nReg) :=
  ⟨by decide, c6_offset_in_range cfg2 engine0 (by decide)⟩

/-- The register file is untouched by the pre-ACK phase outside
`MASTER_WRITE`. -/
lemma isrOverflowPre_i2c_reg_of_not_mwrite (cfg : Cfg) (e : Engine)
    (h3 : ¬ e.i2c_state = I2C_STATE_MASTER_WRITE) :
    (isrOverflowPre cfg e).i2c_reg = e.i2c_reg := by
  by_cases h0 : e.i2c_state = I2C_STATE_ADDR_MATCH
  · rw [isrOverflowPre_addr_match cfg e h0]
    split
    · rfl
    · split <;> rfl
  by_cases h1 : e.i2c_state = I2C_STATE_REG_ADDR
  · rw [isrOverflowPre_reg_addr cfg e h1]
    split <;> rfl
  by_cases h2 : e.i2c_state = I2C_STATE_MASTER_READ
  · rw [isrOverflowPre_mread cfg e h2]
  rw [isrOverflowPre_default cfg e h0 h1 h2 h3]

/-- **C7.** For every register index `r` and bit position `p`, if bit
`p` of the write mask of register `r` is 0, no operation of the engine
— overflow ISR, start ISR, `i2c_init`, `i2c_check_stop` — changes bit
`p` of `register_array[r]` (register bytes being 8-bit values). -/
theorem c7_readonly_bits_preserved (cfg : Cfg) (e : Engine) (r p usisr : Nat)
    (hm : (cfg.wmask.getD r 0).testBit p = false)
    (hb : e.i2c_reg.getD r 0 < 256) :
    ((isrOverflow cfg e).i2c_reg.getD r 0).testBit p =
      (e.i2c_reg.getD r 0).testBit p ∧
    (isrStart e).i2c_reg = e.i2c_reg ∧
    (i2c_init e).i2c_reg = e.i2c_reg ∧
    (i2c_check_stop e usisr).1.i2c_reg = e.i2c_reg := by
  have hstop : (i2c_check_stop e usisr).1.i2c_reg = e.i2c_reg := by
    unfold i2c_check_stop
    split
    · split <;> rfl
    · rfl
  refine ⟨?_, rfl, rfl, hstop⟩
  unfold isrOverflow
  split
  · -- pre-ACK phase
    rw [clampOffset_i2c_reg]
    by_cases h3 : e.i2c_state = I2C_STATE_MASTER_WRITE
    · have hfield :
          ({ isrOverflowPre cfg e with post_ack := true } : Engine).i2c_reg =
            (isrOverflowPre cfg e).i2c_reg := rfl
      rw [hfield, isrOverflowPre_mwrite cfg e h3]
      dsimp only
      split
      · by_cases hlen : r < e.i2c_reg.length
        · rw [getD_set_lt _ _ _ _ hlen]
          by_cases hri : r = e.i2c_offset
          · rw [if_pos hri]
            subst hri
            exact masked_write_testBit _ _ _ _ hm hb
          · rw [if_neg hri]
        · rw [List.getD_eq_default _ _ (by simpa using Nat.le_of_not_lt hlen),
            List.getD_eq_default _ _ (Nat.le_of_not_lt hlen)]
      · rfl
    · have hfield :
          ({ isrOverflowPre cfg e with post_ack := true } : Engine).i2c_reg =
            (isrOverflowPre cfg e).i2c_reg := rfl
      rw [hfield, isrOverflowPre_i2c_reg_of_not_mwrite cfg e h3]
  · -- post-ACK phase
    rw [clampOffset_i2c_reg]
    have hfield :
        ({ isrOverflowPost e with post_ack := false } : Engine).i2c_reg =
          (isrOverflowPost e).i2c_reg := rfl
    rw [hfield, isrOverflowPost_i2c_reg]

/-- A `MASTER_WRITE` engine state at offset 1 about to commit data byte
0xFF, used as a concrete input below. -/
def engineC7 : Engine :=
  { engine0 with i2c_state := I2C_STATE_MASTER_WRITE, i2c_offset := 1, usidr := 0xFF }

/-- **C7, witness.** Bit 7 of register 1 (masked read-only by
`write_mask = [0xFF, 0x0F]`) survives a `MASTER_WRITE` data byte 0xFF at
offset 1. -/
theorem c7_readonly_bits_witness :
    ((isrOverflow cfg2 engineC7).i2c_reg.getD 1 0).testBit 7 =
      (engineC7.i2c_reg.getD 1 0).testBit 7 :=
  (c7_readonly_bits_preserved cfg2 engineC7 1 7 0 (by decide) (by decide)).1

/-- A `MASTER_WRITE` engine state at offset 0 about to commit data byte
0xAB, used as a concrete input below. -/
def engineC8 : Engine :=
  { engine0 with i2c_state := I2C_STATE_MASTER_WRITE, usidr := 0xAB }

/-- An entirely read-only configuration: both write masks 0x00. -/
def cfgRO : Cfg := ⟨0x40, 2, [0x00, 0x00]⟩

/-- A `MASTER_WRITE` engine state used with `cfgRO` below. -/
def engineC10 : Engine :=
  { engine0 with i2c_state := I2C_STATE_MASTER_WRITE, usidr := 0xAB }

/-- **C8.** Pre-ACK phase in state `MASTER_WRITE`, for every received
byte: `register_array[register_offset]` becomes
`(old & ~mask) | (received & mask)` where `mask` is that register's
write mask (every other register is untouched); the engine ACKs,
increments `update_counter` (an 8-bit counter, so modulo 256), and
increments `register_offset`, wrapping to 0 when it reaches `N_REG`. -/
theorem c8_master_write_step (cfg : Cfg) (e : Engine)
    (hpa : e.post_ack = false) (hst : e.i2c_state = I2C_STATE_MASTER_WRITE)
    (hoff : e.i2c_offset < cfg.nReg) (hreg : e.i2c_reg.getD e.i2c_offset 0 < 256)
    (hn : cfg.nReg ≤ 256) :
    (∀ r, r < e.i2c_reg.length →
      (isrOverflow cfg e).i2c_reg.getD r 0 =
        if r = e.i2c_offset then
          (e.i2c_reg.getD r 0 &&& (255 ^^^ cfg.wmask.getD e.i2c_offset 0)) |||
            (e.usidr &&& cfg.wmask.getD e.i2c_offset 0)
        else e.i2c_reg.getD r 0) ∧
    (isrOverflow cfg e).usidr = ackVal ∧
    (isrOverflow cfg e).sda_out = true ∧
    (isrOverflow cfg e).i2c_update = (e.i2c_update + 1) % 256 ∧
    (isrOverflow cfg e).i2c_offset =
      (if e.i2c_offset + 1 = cfg.nReg then 0 else e.i2c_offset + 1) := by
  rw [isrOverflow_of_not_post_ack cfg e hpa, isrOverflowPre_mwrite cfg e hst]
  refine ⟨?_, by simp, by simp, by simp, ?_⟩
  · intro r hr
    rw [clampOffset_i2c_reg]
    dsimp only
    split
    · -- per-register mask non-zero: the masked write lands at the offset
      rw [getD_set_lt _ _ _ _ hr]
      by_cases hri : r = e.i2c_offset
      · subst hri
        simp
      · rw [if_neg hri, if_neg hri]
    · -- mask zero: the C code skips the write, the formula is a no-op
      rename_i hmz
      have hm0 : cfg.wmask.getD e.i2c_offset 0 = 0 := by
        by_contra hc
        exact hmz hc
      rw [hm0]
      by_cases hri : r = e.i2c_offset
      · subst hri
        rw [if_pos rfl]
        have h255 : (255 : Nat) = 2 ^ 8 - 1 := by norm_num
        rw [Nat.xor_zero, Nat.and_zero, Nat.or_zero, h255,
          Nat.and_pow_two_sub_one_eq_mod, Nat.mod_eq_of_lt hreg]
      · rw [if_neg hri]
  · rw [clampOffset_i2c_offset]
    dsimp only
    split_ifs <;> omega

/-- **C8, witness.** A data byte 0xAB committed at offset 0 of the
two-register file: the masked value lands, the engine ACKs, the counter
becomes 1 and the offset advances to 1. -/
theorem c8_master_write_witness :
    (isrOverflow cfg2 engineC8).i2c_reg.getD 0 0 = 0xAB ∧
    (isrOverflow cfg2 engineC8).usidr = ackVal ∧
    (isrOverflow cfg2 engineC8).i2c_update = 1 ∧
    (isrOverflow cfg2 engineC8).i2c_offset = 1 := by
  have h := c8_master_write_step cfg2 engineC8 rfl rfl (by decide) (by decide) (by decide)
  refine ⟨?_, h.2.1, ?_, ?_⟩
  · have h0 := h.1 0 (by decide)
    simpa [engineC8, engine0, cfg2] using h0
  · simpa [engineC8, engine0] using h.2.2.2.1
  · simpa [engineC8, engine0, cfg2] using h.2.2.2.2

/-- **C10.** A `MASTER_WRITE` data byte whose register's effective write
mask is 0x00 is still ACKed, still increments `update_counter` and still
advances `register_offset`, while the register array is left completely
unchanged; consequently `i2c_check_stop` can return non-zero (here 2)
for a transaction that modified no register. -/
theorem c10_readonly_register_still_acked :
    (∀ (cfg : Cfg) (e : Engine), e.post_ack = false →
      e.i2c_state = I2C_STATE_MASTER_WRITE →
      cfg.wmask.getD e.i2c_offset 0 = 0 →
      (isrOverflow cfg e).i2c_reg = e.i2c_reg ∧
      (isrOverflow cfg e).usidr = ackVal ∧
      (isrOverflow cfg e).i2c_update = (e.i2c_update + 1) % 256 ∧
      (isrOverflow cfg e).i2c_offset =
        (if (e.i2c_offset + 1) % 256 > cfg.nReg - 1 then 0
         else (e.i2c_offset + 1) % 256)) ∧
    ((runWrite cfgRO engine0 [0x80, 0x00, 0xAB]).i2c_reg = engine0.i2c_reg ∧
      (i2c_check_stop (runWrite cfgRO engine0 [0x80, 0x00, 0xAB]) 0x20).2 = 2 ∧
      (2 : Nat) ≠ 0) := by
  constructor
  · intro cfg e hpa hst hm
    rw [isrOverflow_of_not_post_ack cfg e hpa, isrOverflowPre_mwrite cfg e hst]
    refine ⟨?_, by simp, by simp, ?_⟩
    · rw [clampOffset_i2c_reg]
      dsimp only
      rw [if_neg (not_ne_iff.mpr hm)]
    · rw [clampOffset_i2c_offset]
  · exact ⟨by decide, by decide, by decide⟩

/-- **C10, witness.** The per-byte part at a concrete all-read-only
configuration. -/
theorem c10_readonly_register_witness :
    (isrOverflow cfgRO engineC10).i2c_reg = engineC10.i2c_reg ∧
    (isrOverflow cfgRO engineC10).usidr = ackVal ∧
    (isrOverflow cfgRO engineC10).i2c_update = (engineC10.i2c_update + 1) % 256 :=
  have h := c10_readonly_register_still_acked.1 cfgRO engineC10 rfl rfl (by decide)
  ⟨h.1, h.2.1, h.2.2.1⟩

set_option maxRecDepth 4000 in
/-- **C9.** `update_counter` is 8-bit, updated modulo 256.  In a single
write transaction it is set to 1 at the write-mode address match and
incremented once per data byte, so after 254 data bytes it reads 255 and
after exactly 255 data bytes it wraps to 0; `i2c_check_stop` then
returns 0 for that transaction (the stop flag being set) even though the
data bytes were committed to the register file. -/
theorem c9_update_counter_wraps :
    (runWrite cfg2 engine0 [0x80]).i2c_update = 1 ∧
    (runWrite cfg2 engine0 (0x80 :: 0x00 :: List.replicate 254 0x5A)).i2c_update = 255 ∧
    (runWrite cfg2 engine0 (0x80 :: 0x00 :: List.replicate 255 0x5A)).i2c_state =
      I2C_STATE_MASTER_WRITE ∧
    (runWrite cfg2 engine0 (0x80 :: 0x00 :: List.replicate 255 0x5A)).i2c_update = 0 ∧
    (runWrite cfg2 engine0 (0x80 :: 0x00 :: List.replicate 255 0x5A)).i2c_reg =
      [0x5A, 0x0A] ∧
    i2c_check_stop (runWrite cfg2 engine0 (0x80 :: 0x00 :: List.replicate 255 0x5A)) 0x20 =
      (runWrite cfg2 engine0 (0x80 :: 0x00 :: List.replicate 255 0x5A), 0) := by
  have hpre : List.foldl (recvByte cfg2) (isrStart engine0) [0x80, 0x00, 0x5A, 0x5A] =
      eSt 0 3 := by decide
  have hrun254 : runWrite cfg2 engine0 (0x80 :: 0x00 :: List.replicate 254 0x5A) =
      eSt 0 255 := by
    unfold runWrite
    rw [show (0x80 :: 0x00 :: List.replicate 254 0x5A : List Nat) =
        [0x80, 0x00, 0x5A, 0x5A] ++ List.replicate 252 0x5A by decide]
    rw [List.foldl_append, hpre, run_eSt 252 0 3 (by norm_num) (by norm_num)]
  have hrun : runWrite cfg2 engine0 (0x80 :: 0x00 :: List.replicate 255 0x5A) =
      eSt 1 0 := by
    unfold runWrite
    rw [show (0x80 :: 0x00 :: List.replicate 255 0x5A : List Nat) =
        [0x80, 0x00, 0x5A, 0x5A] ++ List.replicate 253 0x5A by decide]
    rw [List.foldl_append, hpre, run_eSt 253 0 3 (by norm_num) (by norm_num)]
  rw [hrun, hrun254]
  refine ⟨by decide, rfl, rfl, rfl, rfl, ?_⟩
  decide

end I2CSlave

